import Mathlib

/-!
Verification of the depth-image hand-cropping pipeline
(`src/util/hand_detector.py` and `src/data/importers.py`).

Machine floats are embedded as exact rationals, numpy arrays as
dimensioned functions, and fallible code as `Option` / `Except`.
-/

/-- A single-channel 2D array (numpy array of floats): `rows` by `cols`,
with `data y x` the value at row `y`, column `x`. -/
structure Image where
  rows : ℕ
  cols : ℕ
  data : ℕ → ℕ → ℚ

/-- Python slice-endpoint resolution for an axis of length `n`:
a negative index counts from the end (clamped below at 0), a
non-negative index is clamped above at `n`. -/
def pyIdx (n : ℕ) (i : ℤ) : ℕ :=
  if i < 0 then ((n : ℤ) + i).toNat else min i.toNat n

/-- All pixel values of an image, row-major. -/
def Image.pixList (img : Image) : List ℚ :=
  (List.range img.rows).flatMap (fun y => (List.range img.cols).map (fun x => img.data y x))

/-- `max` of a nonempty list of rationals (numpy `img.max()`); 0 on the
empty list, where numpy instead raises. -/
def listMax : List ℚ → ℚ
  | [] => 0
  | h :: t => t.foldl max h

/-- `min` of a nonempty list of rationals (numpy `img.min()`); 0 on the
empty list, where numpy instead raises. -/
def listMin : List ℚ → ℚ
  | [] => 0
  | h :: t => t.foldl min h

/-- `min(1500, img.max())` from `HandDetector.__init__`. -/
def maxDepth (img : Image) : ℚ := min 1500 (listMax img.pixList)

/-- `max(10, img.min())` from `HandDetector.__init__`. -/
def minDepth (img : Image) : ℚ := max 10 (listMin img.pixList)

/-- The stored image after `HandDetector.__init__`: first every pixel
greater than `max_depth` is set to 0, then (on the already mutated
image) every pixel less than `min_depth` is set to 0. -/
def clampImage (img : Image) : Image :=
  { rows := img.rows
    cols := img.cols
    data := fun y x =>
      let s1 := if maxDepth img < img.data y x then 0 else img.data y x
      if s1 < minDepth img then 0 else s1 }

/-- A center of mass: pixel coordinates `x`, `y` plus depth `z`. -/
structure Com where
  x : ℚ
  y : ℚ
  z : ℚ
  deriving DecidableEq

/-- A 3D bounding-box size in millimeters. -/
structure Size3 where
  x : ℚ
  y : ℚ
  z : ℚ
  deriving DecidableEq

/-- The six crop bounds returned by `bounds_from_com`: integer pixel
bounds and rational depth bounds. -/
structure Bounds where
  xstart : ℤ
  xend : ℤ
  ystart : ℤ
  yend : ℤ
  zstart : ℚ
  zend : ℚ
  deriving DecidableEq

/-- `HandDetector.bounds_from_com`. The Python divisions by `self.fx`,
`self.fy` and `com[2]` raise on a zero divisor, hence the `Option`
guard; otherwise the six bounds are computed exactly as in the source,
with `int(np.floor(..))` embedded as `Int.floor`. -/
def bounds_from_com (fx fy : ℚ) (com : Com) (size : Size3) : Option Bounds :=
  if fx = 0 ∨ fy = 0 ∨ com.z = 0 then none
  else some
    { xstart := ⌊(com.x * com.z / fx - size.x / 2) / com.z * fx⌋
      xend := ⌊(com.x * com.z / fx + size.x / 2) / com.z * fx⌋
      ystart := ⌊(com.y * com.z / fy - size.y / 2) / com.z * fy⌋
      yend := ⌊(com.y * com.z / fy + size.y / 2) / com.z * fy⌋
      zstart := com.z - size.z / 2
      zend := com.z + size.z / 2 }

/-- The spec formula of section 4.3, stated from the words of the spec:
`zstart = com.z - size.z/2`, `zend = com.z + size.z/2`, and the four
pixel bounds floored toward negative infinity. -/
def boundsSpecFormula (fx fy : ℚ) (com : Com) (size : Size3) : Bounds :=
  { xstart := ⌊(com.x * com.z / fx - size.x / 2) / com.z * fx⌋
    xend := ⌊(com.x * com.z / fx + size.x / 2) / com.z * fx⌋
    ystart := ⌊(com.y * com.z / fy - size.y / 2) / com.z * fy⌋
    yend := ⌊(com.y * com.z / fy + size.y / 2) / com.z * fy⌋
    zstart := com.z - size.z / 2
    zend := com.z + size.z / 2 }

/-- The numpy slice `img[max(ystart,0):min(shape0,yend), max(xstart,0):min(shape1,xend)].copy()`
from `crop_img`: endpoints resolved by Python slice semantics, the
resulting window read out of the parent array. -/
def crop_extract (img : Image) (xs xe ys ye : ℤ) : Image :=
  let y0 := pyIdx img.rows (max ys 0)
  let y1 := pyIdx img.rows (min (img.rows : ℤ) ye)
  let x0 := pyIdx img.cols (max xs 0)
  let x1 := pyIdx img.cols (min (img.cols : ℤ) xe)
  { rows := y1 - y0
    cols := x1 - x0
    data := fun i j => img.data (y0 + i) (x0 + j) }

/-- The two threshold mask assignments of `crop_img`: both masks are
computed from the original values, then `cropped_img[near] = zstart`
runs before `cropped_img[far] = 0`, so a pixel in both masks ends at 0. -/
def threshImage (c : Image) (zs ze : ℚ) : Image :=
  { rows := c.rows
    cols := c.cols
    data := fun i j =>
      let v := c.data i j
      if ze < v ∧ v ≠ 0 then 0
      else if v < zs ∧ v ≠ 0 then zs
      else v }

/-- The padded array `cropped` computed by `crop_img` via `np.pad`
(assigned and then never used by the source). -/
def crop_padded (img : Image) (xs xe ys ye : ℤ) (c : Image) : Image :=
  let padTop := (|ys| - max ys 0).toNat
  let padBot := (|ye| - min (img.rows : ℤ) ye).toNat
  let padLeft := (|xs| - max xs 0).toNat
  let padRight := (|xe| - min (img.cols : ℤ) xe).toNat
  { rows := padTop + c.rows + padBot
    cols := padLeft + c.cols + padRight
    data := fun i j =>
      if padTop ≤ i ∧ i < padTop + c.rows ∧ padLeft ≤ j ∧ j < padLeft + c.cols then
        c.data (i - padTop) (j - padLeft)
      else 0 }

/-- `HandDetector.crop_img` on a 2D image: extracts the clipped window
as a copy, optionally thresholds it in z, and returns it. The padded
array `cropped` is computed by the source but discarded: the return
value is the unpadded `cropped_img`. -/
def crop_img (img : Image) (xs xe ys ye : ℤ) (zs ze : ℚ) (thresh_z : Bool) : Image :=
  let c := crop_extract img xs xe ys ye
  if thresh_z then threshImage c zs ze else c

/-- Modelled from the spec: `cv2.resize(img, dsize, INTER_NEAREST)` is
not repository code; per section 4.5 it resamples to the requested
size with nearest-neighbor interpolation. `dsize = (w, h)` gives an
output of `h` rows by `w` columns, each output pixel reading the
nearest source pixel. -/
def cvResize (img : Image) (w h : ℕ) : Image :=
  { rows := h
    cols := w
    data := fun i j => img.data (i * img.rows / h) (j * img.cols / w) }

/-- `HandDetector.crop_area_3d`: validates `size`, `img_size` and `com`
in source order (each `raise ValueError` embedded as `Except.error`
with the source message), then projects bounds, crops with
thresholding, and resizes to `img_size`. -/
def crop_area_3d (fx fy : ℚ) (img : Image) (com : Option Com)
    (size : List ℚ) (img_size : List ℕ) : Except String Image :=
  if size.length ≠ 3 then Except.error ("size must be 3D.")
  else if img_size.length ≠ 2 then Except.error ("img_size must be 2D")
  else
    match com with
    | Option.none => Except.error ("CoM must be provided.")
    | Option.some c =>
      match bounds_from_com fx fy c ⟨size.getD 0 0, size.getD 1 0, size.getD 2 0⟩ with
      | Option.none => Except.error ("zero divisor in projection")
      | Option.some b =>
        Except.ok (cvResize (crop_img img b.xstart b.xend b.ystart b.yend b.zstart b.zend true)
          (img_size.getD 0 0) (img_size.getD 1 0))

/-- A raw multi-channel 8-bit image as handed to `load_depth_data`:
`channel c y x` is the value of band `c` at pixel `(y, x)`. PIL bands
of an RGB image hold bytes, so values lie in `[0, 255]`. -/
structure RawImage where
  nchannels : ℕ
  rows : ℕ
  cols : ℕ
  channel : ℕ → ℕ → ℕ → ℕ

/-- `NYUImporter.load_depth_data` after the file is opened: the
`assert len(img.getbands()) == 3` failure is embedded as `none`;
otherwise bands 1 (green) and 2 (blue) are combined per pixel as
`bitwise_or(left_shift(g, 8), b)` and cast to float. On byte-range
band values the int32 operations of the source coincide with the
natural-number operations used here. -/
def load_depth_data (raw : RawImage) : Option Image :=
  if raw.nchannels = 3 then
    some
      { rows := raw.rows
        cols := raw.cols
        data := fun y x => (((raw.channel 1 y x <<< 8) ||| raw.channel 2 y x : ℕ) : ℚ) }
  else none

/-- State-passing rendering of `crop_img`: the first component is the
caller array after the call, the second the returned crop. The source
extracts the window with `.copy()`, so the two threshold mask writes
hit that copy and never the caller array. -/
def crop_img_state (img : Image) (xs xe ys ye : ℤ) (zs ze : ℚ) (thresh_z : Bool) :
    Image × Image :=
  (img, crop_img img xs xe ys ye zs ze thresh_z)

/-- State-passing rendering of `crop_area_3d`: the first component is
the stored image after the call, the second the result. -/
def crop_area_3d_state (fx fy : ℚ) (img : Image) (com : Option Com)
    (size : List ℚ) (img_size : List ℕ) : Image × Except String Image :=
  (img, crop_area_3d fx fy img com size img_size)

theorem le_foldl_max (l : List ℚ) (init : ℚ) : init ≤ l.foldl max init := by
  induction l generalizing init with
  | nil => simp
  | cons h t ih => exact le_trans (le_max_left init h) (ih (max init h))

theorem mem_le_foldl_max {a : ℚ} {l : List ℚ} (init : ℚ) (h : a ∈ l) :
    a ≤ l.foldl max init := by
  induction l generalizing init with
  | nil => cases h
  | cons hd t ih =>
    rcases List.mem_cons.mp h with rfl | hm
    · exact le_trans (le_max_right init a) (le_foldl_max t (max init a))
    · exact ih (max init hd) hm

theorem le_listMax_of_mem {a : ℚ} {l : List ℚ} (h : a ∈ l) : a ≤ listMax l := by
  cases l with
  | nil => cases h
  | cons hd t =>
    rcases List.mem_cons.mp h with rfl | hm
    · exact le_foldl_max t a
    · exact mem_le_foldl_max hd hm

theorem mem_pixList (img : Image) {y x : ℕ} (hy : y < img.rows) (hx : x < img.cols) :
    img.data y x ∈ img.pixList := by
  simp only [Image.pixList, List.mem_flatMap, List.mem_map, List.mem_range]
  exact ⟨y, hy, x, hx, rfl⟩

/-- Helper: under nonzero divisors, `bounds_from_com` returns the spec
formula bounds. -/
theorem bounds_from_com_some (fx fy : ℚ) (com : Com) (size : Size3)
    (hz : com.z ≠ 0) (hfx : fx ≠ 0) (hfy : fy ≠ 0) :
    bounds_from_com fx fy com size = some (boundsSpecFormula fx fy com size) := by
  unfold bounds_from_com boundsSpecFormula
  rw [if_neg]
  push_neg
  exact ⟨hfx, hfy, hz⟩

/-- Claim C5: after construction, a pixel originally above `max_depth`
or below `min_depth` is 0, a pixel originally inside
`[min_depth, max_depth]` is unaltered, and every stored value lies in
`[0, min(1500, original maximum)]`. -/
theorem hand_detector_clamp (img : Image) (y x : ℕ) (hy : y < img.rows) (hx : x < img.cols)
    (hnn : ∀ r, r < img.rows → ∀ c, c < img.cols → 0 ≤ img.data r c) :
    ((maxDepth img < img.data y x ∨ img.data y x < minDepth img) →
      (clampImage img).data y x = 0) ∧
    (minDepth img ≤ img.data y x → img.data y x ≤ maxDepth img →
      (clampImage img).data y x = img.data y x) ∧
    (0 ≤ (clampImage img).data y x ∧ (clampImage img).data y x ≤ maxDepth img) := by
  have hmem : img.data y x ∈ img.pixList := mem_pixList img hy hx
  have h0M : (0 : ℚ) ≤ maxDepth img :=
    le_min (by norm_num) ((hnn y hy x hx).trans (le_listMax_of_mem hmem))
  refine ⟨?_, ?_, ?_⟩
  · intro h
    by_cases h1 : maxDepth img < img.data y x
    · simp [clampImage, h1]
    · rcases h with h | h2
      · exact absurd h h1
      · simp [clampImage, h1, h2]
  · intro hge hle
    have h1 : ¬ maxDepth img < img.data y x := not_lt.mpr hle
    have h2 : ¬ img.data y x < minDepth img := not_lt.mpr hge
    simp [clampImage, h1, h2]
  · by_cases h1 : maxDepth img < img.data y x
    · have hval : (clampImage img).data y x = 0 := by simp [clampImage, h1]
      rw [hval]
      exact ⟨le_refl 0, h0M⟩
    · by_cases h2 : img.data y x < minDepth img
      · have hval : (clampImage img).data y x = 0 := by simp [clampImage, h1, h2]
        rw [hval]
        exact ⟨le_refl 0, h0M⟩
      · have hval : (clampImage img).data y x = img.data y x := by
          simp [clampImage, h1, h2]
        rw [hval]
        exact ⟨hnn y hy x hx, not_lt.mp h1⟩

/-- A concrete 1-by-1 image holding 500, for witnesses. -/
def demoImgA : Image := ⟨1, 1, fun _ _ => 500⟩

/-- Witness for C5 at a concrete image. -/
theorem hand_detector_clamp_witness :
    ((maxDepth demoImgA < demoImgA.data 0 0 ∨ demoImgA.data 0 0 < minDepth demoImgA) →
      (clampImage demoImgA).data 0 0 = 0) ∧
    (minDepth demoImgA ≤ demoImgA.data 0 0 → demoImgA.data 0 0 ≤ maxDepth demoImgA →
      (clampImage demoImgA).data 0 0 = demoImgA.data 0 0) ∧
    (0 ≤ (clampImage demoImgA).data 0 0 ∧ (clampImage demoImgA).data 0 0 ≤ maxDepth demoImgA) :=
  hand_detector_clamp demoImgA 0 0 (by norm_num [demoImgA]) (by norm_num [demoImgA])
    (fun r _ c _ => by norm_num [demoImgA])

/-- Claim C3: under nonzero depth (and nonzero focal lengths, part of
the pinhole-camera data model), `bounds_from_com` returns exactly the
six bounds of the spec formula in section 4.3. -/
theorem bounds_from_com_eq_spec (fx fy : ℚ) (com : Com) (size : Size3)
    (hz : com.z ≠ 0) (hfx : fx ≠ 0) (hfy : fy ≠ 0) :
    bounds_from_com fx fy com size = some (boundsSpecFormula fx fy com size) :=
  bounds_from_com_some fx fy com size hz hfx hfy

/-- Witness for C3 at a concrete input. -/
theorem bounds_from_com_eq_spec_witness :
    bounds_from_com 1 1 ⟨3, 4, 1⟩ ⟨2, 2, 2⟩ = some (boundsSpecFormula 1 1 ⟨3, 4, 1⟩ ⟨2, 2, 2⟩) :=
  bounds_from_com_eq_spec 1 1 ⟨3, 4, 1⟩ ⟨2, 2, 2⟩ (by norm_num) (by norm_num) (by norm_num)

/-- Claim C9: with `com.z` nonzero (and nonzero focal lengths, part of
the pinhole-camera data model), `bounds_from_com` reaches no division
by zero and returns its six bounds. -/
theorem bounds_from_com_total (fx fy : ℚ) (com : Com) (size : Size3)
    (hz : com.z ≠ 0) (hfx : fx ≠ 0) (hfy : fy ≠ 0) :
    ∃ b, bounds_from_com fx fy com size = some b :=
  ⟨boundsSpecFormula fx fy com size, bounds_from_com_some fx fy com size hz hfx hfy⟩

/-- Witness for C9 at a concrete input. -/
theorem bounds_from_com_total_witness :
    ∃ b, bounds_from_com 2 3 ⟨5, 6, 2⟩ ⟨10, 10, 10⟩ = some b :=
  bounds_from_com_total 2 3 ⟨5, 6, 2⟩ ⟨10, 10, 10⟩ (by norm_num) (by norm_num) (by norm_num)

theorem abs_floor_sub_floor_sub_lt_one (a b : ℚ) :
    |((⌊a⌋ - ⌊b⌋ : ℤ) : ℚ) - (a - b)| < 1 := by
  have h1 : (⌊a⌋ : ℚ) ≤ a := Int.floor_le a
  have h2 : a < ⌊a⌋ + 1 := Int.lt_floor_add_one a
  have h3 : (⌊b⌋ : ℚ) ≤ b := Int.floor_le b
  have h4 : b < ⌊b⌋ + 1 := Int.lt_floor_add_one b
  rw [abs_lt]
  push_cast
  constructor <;> linarith

/-- Counterexample to C2 as stated: with `fx = fy = 2`, `com = (0,0,1)`
and `size = (2,2,2)`, the pixel width `xend - xstart` is 4, which is
not within 1 unit of `S = 2`. -/
theorem bounds_width_not_size :
    ∃ b, bounds_from_com 2 2 ⟨0, 0, 1⟩ ⟨2, 2, 2⟩ = some b ∧
      ¬ (|((b.xend - b.xstart : ℤ) : ℚ) - 2| ≤ 1) := by
  refine ⟨⟨-2, 2, -2, 2, 0, 2⟩, ?_, ?_⟩
  · rw [bounds_from_com_some 2 2 ⟨0, 0, 1⟩ ⟨2, 2, 2⟩ (by norm_num) (by norm_num) (by norm_num)]
    simp only [boundsSpecFormula, Option.some.injEq, Bounds.mk.injEq]
    refine ⟨?_, ?_, ?_, ?_, by norm_num, by norm_num⟩ <;>
      exact Int.floor_eq_iff.mpr (by norm_num)
  · simp only [abs_le, not_and_or, not_le]
    right
    push_cast
    norm_num

/-- Claim C2 amended: for `size = (S, S, Sz)` and `com.z > 0` (with
nonzero focal lengths), `xend - xstart` is within 1 unit of the
projected width `S * fx / com.z`, and `yend - ystart` within 1 unit of
`S * fy / com.z`; the deviation is due only to flooring. The width is
not independent of `com.z`. -/
theorem bounds_width_projected (fx fy S Sz : ℚ) (com : Com)
    (hz : 0 < com.z) (hfx : fx ≠ 0) (hfy : fy ≠ 0) :
    ∃ b, bounds_from_com fx fy com ⟨S, S, Sz⟩ = some b ∧
      |((b.xend - b.xstart : ℤ) : ℚ) - S * fx / com.z| < 1 ∧
      |((b.yend - b.ystart : ℤ) : ℚ) - S * fy / com.z| < 1 := by
  refine ⟨boundsSpecFormula fx fy com ⟨S, S, Sz⟩,
    bounds_from_com_some fx fy com ⟨S, S, Sz⟩ (ne_of_gt hz) hfx hfy, ?_, ?_⟩
  · have hd : (com.x * com.z / fx + S / 2) / com.z * fx -
        (com.x * com.z / fx - S / 2) / com.z * fx = S * fx / com.z := by
      ring
    simp only [boundsSpecFormula]
    rw [← hd]
    exact abs_floor_sub_floor_sub_lt_one _ _
  · have hd : (com.y * com.z / fy + S / 2) / com.z * fy -
        (com.y * com.z / fy - S / 2) / com.z * fy = S * fy / com.z := by
      ring
    simp only [boundsSpecFormula]
    rw [← hd]
    exact abs_floor_sub_floor_sub_lt_one _ _

/-- Witness for the amended C2 at a concrete input. -/
theorem bounds_width_projected_witness :
    ∃ b, bounds_from_com 2 2 ⟨0, 0, 1⟩ ⟨2, 2, 2⟩ = some b ∧
      |((b.xend - b.xstart : ℤ) : ℚ) - 2 * 2 / (1 : ℚ)| < 1 ∧
      |((b.yend - b.ystart : ℤ) : ℚ) - 2 * 2 / (1 : ℚ)| < 1 := by
  have h := bounds_width_projected 2 2 2 2 ⟨0, 0, 1⟩ (by norm_num) (by norm_num) (by norm_num)
  exact h

/-- A concrete 3-by-3 image holding 5, for the C1 failing input. -/
def demoImgB : Image := ⟨3, 3, fun _ _ => 5⟩

/-- Claim C1 (code bug): on the 3-by-3 image with window
`xstart = 0, xend = 5, ystart = 0, yend = 4`, the requested window is
4 rows by 5 columns, but `crop_img` returns the unpadded 3-by-3
clipped region: the source assigns the `np.pad` result to a variable
it never uses and returns `cropped_img` instead. The discarded padded
array does have the requested dimensions. -/
theorem crop_img_not_padded :
    (crop_img demoImgB 0 5 0 4 0 100 true).rows = 3 ∧
    (crop_img demoImgB 0 5 0 4 0 100 true).cols = 3 ∧
    ¬ ((crop_img demoImgB 0 5 0 4 0 100 true).rows = 4 ∧
       (crop_img demoImgB 0 5 0 4 0 100 true).cols = 5) ∧
    (crop_padded demoImgB 0 5 0 4 (crop_extract demoImgB 0 5 0 4)).rows = 4 ∧
    (crop_padded demoImgB 0 5 0 4 (crop_extract demoImgB 0 5 0 4)).cols = 5 := by
  decide

theorem crop_img_thresh_data (img : Image) (xs xe ys ye : ℤ) (zs ze : ℚ) (i j : ℕ) :
    (crop_img img xs xe ys ye zs ze true).data i j =
      (if ze < (crop_extract img xs xe ys ye).data i j ∧
          (crop_extract img xs xe ys ye).data i j ≠ 0 then 0
       else if (crop_extract img xs xe ys ye).data i j < zs ∧
          (crop_extract img xs xe ys ye).data i j ≠ 0 then zs
       else (crop_extract img xs xe ys ye).data i j) := rfl

/-- Claim C4 amended: for a crop thresholded by `crop_img` with
`zstart ≤ zend` (as every crop produced through `bounds_from_com` with
nonnegative `size.z` satisfies), a nonzero pixel strictly inside
`(zstart, zend)` is unchanged, a nonzero pixel at most `zstart`
becomes exactly `zstart`, a nonzero pixel above `zend` becomes 0, and
a zero pixel is never modified. Without `zstart ≤ zend` the far rule,
applied second, overrides the near rule. -/
theorem crop_img_thresh_rules (img : Image) (xs xe ys ye : ℤ) (zs ze : ℚ)
    (hzz : zs ≤ ze) (i j : ℕ)
    (hi : i < (crop_extract img xs xe ys ye).rows)
    (hj : j < (crop_extract img xs xe ys ye).cols) :
    ((crop_extract img xs xe ys ye).data i j ≠ 0 →
      zs < (crop_extract img xs xe ys ye).data i j →
      (crop_extract img xs xe ys ye).data i j < ze →
      (crop_img img xs xe ys ye zs ze true).data i j =
        (crop_extract img xs xe ys ye).data i j) ∧
    ((crop_extract img xs xe ys ye).data i j ≠ 0 →
      (crop_extract img xs xe ys ye).data i j ≤ zs →
      (crop_img img xs xe ys ye zs ze true).data i j = zs) ∧
    ((crop_extract img xs xe ys ye).data i j ≠ 0 →
      ze < (crop_extract img xs xe ys ye).data i j →
      (crop_img img xs xe ys ye zs ze true).data i j = 0) ∧
    ((crop_extract img xs xe ys ye).data i j = 0 →
      (crop_img img xs xe ys ye zs ze true).data i j = 0) := by
  have hd := crop_img_thresh_data img xs xe ys ye zs ze i j
  refine ⟨?_, ?_, ?_, ?_⟩
  · intro hne hlt hlt2
    rw [hd, if_neg (fun h => absurd h.1 (not_lt.mpr (le_of_lt hlt2))),
      if_neg (fun h => absurd h.1 (not_lt.mpr (le_of_lt hlt)))]
  · intro hne hle
    have hfar : ¬ (ze < (crop_extract img xs xe ys ye).data i j ∧
        (crop_extract img xs xe ys ye).data i j ≠ 0) :=
      fun h => absurd h.1 (not_lt.mpr (hle.trans hzz))
    rcases lt_or_eq_of_le hle with h | h
    · rw [hd, if_neg hfar, if_pos ⟨h, hne⟩]
    · rw [hd, if_neg hfar, if_neg (fun hc => absurd hc.1 (by rw [h]; exact lt_irrefl zs))]
      exact h
  · intro hne hgt
    rw [hd, if_pos ⟨hgt, hne⟩]
  · intro h0
    rw [hd, if_neg (fun hc => hc.2 h0), if_neg (fun hc => hc.2 h0)]
    exact h0

/-- A concrete 2-by-2 image with values 5, 0, 50, 7, for the C4 witness. -/
def demoImgC : Image :=
  ⟨2, 2, fun y x => if y = 0 then (if x = 0 then 5 else 0) else (if x = 0 then 50 else 7)⟩

/-- Witness for the amended C4 at a concrete crop and pixel. -/
theorem crop_img_thresh_rules_witness :
    ((crop_extract demoImgC 0 2 0 2).data 0 0 ≠ 0 →
      6 < (crop_extract demoImgC 0 2 0 2).data 0 0 →
      (crop_extract demoImgC 0 2 0 2).data 0 0 < 40 →
      (crop_img demoImgC 0 2 0 2 6 40 true).data 0 0 =
        (crop_extract demoImgC 0 2 0 2).data 0 0) ∧
    ((crop_extract demoImgC 0 2 0 2).data 0 0 ≠ 0 →
      (crop_extract demoImgC 0 2 0 2).data 0 0 ≤ 6 →
      (crop_img demoImgC 0 2 0 2 6 40 true).data 0 0 = 6) ∧
    ((crop_extract demoImgC 0 2 0 2).data 0 0 ≠ 0 →
      40 < (crop_extract demoImgC 0 2 0 2).data 0 0 →
      (crop_img demoImgC 0 2 0 2 6 40 true).data 0 0 = 0) ∧
    ((crop_extract demoImgC 0 2 0 2).data 0 0 = 0 →
      (crop_img demoImgC 0 2 0 2 6 40 true).data 0 0 = 0) :=
  crop_img_thresh_rules demoImgC 0 2 0 2 6 40 (by norm_num) 0 0 (by decide) (by decide)

/-- A concrete 1-by-1 image holding 4, for the C4 counterexample. -/
def demoImgD : Image := ⟨1, 1, fun _ _ => 4⟩

/-- Counterexample to C4 as stated: with `zstart = 5 > zend = 3`, the
nonzero pixel 4 satisfies `v ≤ zstart`, yet thresholding sends it to 0
rather than to `zstart`, because the far mask (computed from the
original values) is applied after the near mask. -/
theorem thresh_near_far_conflict :
    (crop_extract demoImgD 0 1 0 1).data 0 0 = 4 ∧ (4 : ℚ) ≠ 0 ∧ (4 : ℚ) ≤ 5 ∧
    (crop_img demoImgD 0 1 0 1 5 3 true).data 0 0 = 0 ∧ (0 : ℚ) ≠ 5 := by
  have hval : (crop_extract demoImgD 0 1 0 1).data 0 0 = (4 : ℚ) := rfl
  refine ⟨hval, by norm_num, by norm_num, ?_, by norm_num⟩
  rw [crop_img_thresh_data, hval, if_pos (by norm_num : (3 : ℚ) < 4 ∧ (4 : ℚ) ≠ 0)]

/-- Claim C6: on a 3-channel image, decoding yields at every pixel
exactly `(G <<< 8) ||| B` cast to float, with the R channel having no
effect on the result; on any other channel count it fails. -/
theorem load_depth_data_correct (raw rawR : RawImage)
    (hch : rawR.nchannels = raw.nchannels) (hr : rawR.rows = raw.rows)
    (hcol : rawR.cols = raw.cols)
    (hGB : ∀ c, c ≠ 0 → rawR.channel c = raw.channel c) :
    (raw.nchannels = 3 →
      ∃ img, load_depth_data raw = some img ∧ img.rows = raw.rows ∧ img.cols = raw.cols ∧
        (∀ y x, img.data y x = (((raw.channel 1 y x <<< 8) ||| raw.channel 2 y x : ℕ) : ℚ)) ∧
        load_depth_data rawR = load_depth_data raw) ∧
    (raw.nchannels ≠ 3 → load_depth_data raw = none) := by
  constructor
  · intro h3
    refine ⟨⟨raw.rows, raw.cols,
      fun y x => (((raw.channel 1 y x <<< 8) ||| raw.channel 2 y x : ℕ) : ℚ)⟩, ?_, rfl, rfl,
      fun y x => rfl, ?_⟩
    · simp [load_depth_data, h3]
    · unfold load_depth_data
      rw [hch, hr, hcol, hGB 1 one_ne_zero, hGB 2 (by norm_num)]
  · intro h3
    simp [load_depth_data, h3]

/-- A concrete 3-channel 1-by-1 raw image, for the C6 witness. -/
def demoRawA : RawImage := ⟨3, 1, 1, fun c _ _ => if c = 0 then 7 else c + 1⟩

/-- The same raw image with a different R channel, for the C6 witness. -/
def demoRawB : RawImage := ⟨3, 1, 1, fun c _ _ => if c = 0 then 99 else c + 1⟩

/-- Witness for C6 at a concrete raw image. -/
theorem load_depth_data_correct_witness :
    (demoRawA.nchannels = 3 →
      ∃ img, load_depth_data demoRawA = some img ∧ img.rows = demoRawA.rows ∧
        img.cols = demoRawA.cols ∧
        (∀ y x, img.data y x =
          (((demoRawA.channel 1 y x <<< 8) ||| demoRawA.channel 2 y x : ℕ) : ℚ)) ∧
        load_depth_data demoRawB = load_depth_data demoRawA) ∧
    (demoRawA.nchannels ≠ 3 → load_depth_data demoRawA = none) :=
  load_depth_data_correct demoRawA demoRawB rfl rfl rfl
    (fun c hc => funext fun y => funext fun x => by simp [demoRawA, demoRawB, hc])

/-- Claim C7: the three argument validations of `crop_area_3d` each
fail with the source message. The statement quantifies over arbitrary
focal lengths, stored image and center of mass (including ones on
which the projection itself would fail), so each error is produced
before and independently of any bounds computation. -/
theorem crop_area_3d_validation (fx fy : ℚ) (img : Image) (com : Option Com)
    (size : List ℚ) (img_size : List ℕ) :
    (size.length ≠ 3 →
      crop_area_3d fx fy img com size img_size = Except.error ("size must be 3D.")) ∧
    (size.length = 3 → img_size.length ≠ 2 →
      crop_area_3d fx fy img com size img_size = Except.error ("img_size must be 2D")) ∧
    (size.length = 3 → img_size.length = 2 → com = none →
      crop_area_3d fx fy img com size img_size = Except.error ("CoM must be provided.")) := by
  refine ⟨?_, ?_, ?_⟩
  · intro h
    simp [crop_area_3d, h]
  · intro h3 h2
    simp [crop_area_3d, h3, h2]
  · intro h3 h2 hc
    subst hc
    simp [crop_area_3d, h3, h2]

/-- Witness for C7: all three validations exercised concretely,
with a zero-depth center of mass in the third call. -/
theorem crop_area_3d_validation_witness :
    crop_area_3d 1 1 demoImgA (some ⟨0, 0, 0⟩) [250, 250] [128, 128] =
      Except.error ("size must be 3D.") ∧
    crop_area_3d 1 1 demoImgA (some ⟨0, 0, 0⟩) [250, 250, 250] [128] =
      Except.error ("img_size must be 2D") ∧
    crop_area_3d 1 1 demoImgA none [250, 250, 250] [128, 128] =
      Except.error ("CoM must be provided.") :=
  ⟨(crop_area_3d_validation 1 1 demoImgA (some ⟨0, 0, 0⟩) [250, 250] [128, 128]).1
      (by norm_num),
    (crop_area_3d_validation 1 1 demoImgA (some ⟨0, 0, 0⟩) [250, 250, 250] [128]).2.1
      rfl (by norm_num),
    (crop_area_3d_validation 1 1 demoImgA none [250, 250, 250] [128, 128]).2.2
      rfl rfl rfl⟩

/-- Claim C8: a valid call of `crop_area_3d` returns an image of
exactly the requested output size, whatever the intermediate crop
window was. Per the `cv2.resize` dsize convention, `img_size = (w, h)`
gives `h` rows and `w` columns. -/
theorem crop_area_3d_output_size (fx fy : ℚ) (img : Image) (c : Com)
    (size : List ℚ) (img_size : List ℕ)
    (h3 : size.length = 3) (h2 : img_size.length = 2)
    (hz : c.z ≠ 0) (hfx : fx ≠ 0) (hfy : fy ≠ 0) :
    ∃ out, crop_area_3d fx fy img (some c) size img_size = Except.ok out ∧
      out.rows = img_size.getD 1 0 ∧ out.cols = img_size.getD 0 0 := by
  have hb := bounds_from_com_some fx fy c ⟨size.getD 0 0, size.getD 1 0, size.getD 2 0⟩
    hz hfx hfy
  simp only [crop_area_3d, h3, h2, hb]
  norm_num
  exact ⟨rfl, rfl⟩

/-- Witness for C8 at a concrete call. -/
theorem crop_area_3d_output_size_witness :
    ∃ out, crop_area_3d 1 1 demoImgB (some ⟨0, 0, 1⟩) [250, 250, 250] [4, 6] =
      Except.ok out ∧
      out.rows = ([4, 6] : List ℕ).getD 1 0 ∧ out.cols = ([4, 6] : List ℕ).getD 0 0 :=
  crop_area_3d_output_size 1 1 demoImgB ⟨0, 0, 1⟩ [250, 250, 250] [4, 6]
    rfl rfl (by norm_num) (by norm_num) (by norm_num)

/-- Claim C10: in the state-passing rendering, both `crop_img` and
`crop_area_3d` return the caller image unchanged: the window is
extracted with `.copy()`, so the threshold mask writes hit only that
copy, and nothing after construction writes to the stored image. -/
theorem crop_img_no_mutation (img : Image) (xs xe ys ye : ℤ) (zs ze : ℚ) (tz : Bool)
    (fx fy : ℚ) (com : Option Com) (size : List ℚ) (img_size : List ℕ) :
    (crop_img_state img xs xe ys ye zs ze tz).1 = img ∧
    (crop_area_3d_state fx fy img com size img_size).1 = img :=
  ⟨rfl, rfl⟩
